import Mathlib

/-!
# Verification of the Kindle screenshot capture extension

Shallow embedding, in Lean 4, of the capture orchestration loop and the
frame-to-PDF assembly pipeline of the `kindle-screenshot-extension`
repository:

* `offscreen/offscreen.js` — the offscreen document: chunked batch
  reassembly (`generatePdfBatchInit` / `generatePdfBatch` /
  `generatePdf` message handlers), `cropImage`, `resizeImage`,
  `buildPdf`;
* the service worker (`src/unnamed/part_002`) — `captureLoop`,
  `captureWithZoom`, `captureWithRetry`, `generatePdf` (the batching
  sender), `handleStartCapture`;
* `popup/popup.js` — the start-button input validation.

Frames are abstracted as `Nat` identifiers (their pixel content never
matters to the properties below); a captured data URL is abstracted by
its string length where the blank-detection size heuristic is concerned.
Asynchronous effects are modelled by explicit environments: the outcome
of each `chrome.tabs.captureVisibleTab` call, per-page results of
`captureWithRetry`, and an explicit "first observation point at which a
`stopCapture` becomes visible" parameter for the cooperative stop flag.
-/

namespace KindleCapture

/-- A captured frame, abstracted to an identifier.  The pipeline never
inspects frame contents; it only moves frames around, so an opaque
identifier is a faithful model. -/
abbrev Frame := Nat

/-! ## Offscreen document: chunked batch reassembly (offscreen.js)

Module-level mutable state of the offscreen document:
`let batchedImages = []; let totalBatches = 0; let receivedBatches = 0;`.
-/

/-- The offscreen document's module-level batching state. -/
structure OffscreenState where
  batchedImages : List Frame
  totalBatches : Nat
  receivedBatches : Nat
deriving DecidableEq, Repr

/-- The state of a freshly created offscreen document, before any
message has been handled: `batchedImages = []`, `totalBatches = 0`,
`receivedBatches = 0` (the `let` initialisers at the top of
offscreen.js). -/
def OffscreenState.init : OffscreenState := ⟨[], 0, 0⟩

/-- One `generatePdfBatch` message, as sent by the service worker's
`generatePdf`: `{ batchIndex, images, isLast }`. -/
structure BatchMsg where
  batchIndex : Nat
  images : List Frame
  isLast : Bool
deriving DecidableEq, Repr

/-- The `generatePdfBatchInit` handler: resets `batchedImages` and
`receivedBatches`, records `totalBatches` (crop/size settings are
modelled separately by `cropDims`/`resizeDims`). -/
def handleBatchInit (totalBatches : Nat) : OffscreenState :=
  ⟨[], totalBatches, 0⟩

/-- The `generatePdfBatch` handler.  Mirrors offscreen.js lines 35–43:

```
batchedImages.push(...msg.images);
receivedBatches++;
if (msg.isLast || receivedBatches >= totalBatches) {
  buildPdf(batchedImages);
  batchedImages = [];
}
```

Returns the new state, and `some imgs` when `buildPdf imgs` was
invoked.  Note that `msg.batchIndex` is never read. -/
def handleBatch (s : OffscreenState) (m : BatchMsg) : OffscreenState × Option (List Frame) :=
  let imgs := s.batchedImages ++ m.images
  let rcv := s.receivedBatches + 1
  if m.isLast || decide (s.totalBatches ≤ rcv) then
    (⟨[], s.totalBatches, rcv⟩, some imgs)
  else
    (⟨imgs, s.totalBatches, rcv⟩, none)

/-- Deliver a sequence of `generatePdfBatch` messages to the offscreen
document, in the given arrival order, collecting the argument of every
`buildPdf` invocation that fires. -/
def deliverBatches (s : OffscreenState) : List BatchMsg → List (List Frame)
  | [] => []
  | m :: ms =>
    let r := handleBatch s m
    (match r.2 with
     | some imgs => [imgs]
     | none => []) ++ deliverBatches r.1 ms

/-- The function `buildPdf images` produces one PDF page per image, in list order
(the loop `for (let i = 0; i < images.length; i++) ... pdf.addImage`),
and errors out (`captureError`, no artifact) on empty input.  The page
sequence of the artifact is therefore the image sequence itself. -/
def buildPdf (images : List Frame) : Option (List Frame) :=
  if images.isEmpty then none else some images

/-! ## Service worker: the batching sender (generatePdf, part_002) -/

/-- Constant `BATCH_SIZE = 20` in the service worker's `generatePdf`. -/
def BATCH_SIZE : Nat := 20

/-- Value `Math.ceil(images.length / BATCH_SIZE)`, the `totalBatches` value
sent in `generatePdfBatchInit`. -/
def numBatches (n : Nat) : Nat := (n + BATCH_SIZE - 1) / BATCH_SIZE

/-- The batch message sent at loop offset `i = BATCH_SIZE * k` in

```
for (let i = 0; i < images.length; i += BATCH_SIZE) {
  const batch = images.slice(i, i + BATCH_SIZE);
  ... batchIndex: Math.floor(i / BATCH_SIZE), images: batch,
      isLast: i + BATCH_SIZE >= images.length ...
}
```

`slice(i, i+20)` is `(drop i).take 20`; `batchIndex = k`;
`isLast ↔ images.length ≤ i + BATCH_SIZE`. -/
def mkBatchMsg (images : List Frame) (k : Nat) : BatchMsg :=
  { batchIndex := k
    images := (images.drop (BATCH_SIZE * k)).take BATCH_SIZE
    isLast := decide (images.length ≤ BATCH_SIZE * k + BATCH_SIZE) }

/-- All batch messages of one `generatePdf` call, in the order the
sender emits them.  The JS loop runs for `i = 0, 20, 40, …` while
`i < images.length`, i.e. exactly `numBatches images.length`
iterations with `k = i / BATCH_SIZE`. -/
def makeBatches (images : List Frame) : List BatchMsg :=
  (List.range (numBatches images.length)).map (mkBatchMsg images)

/-! ## Offscreen document: cropImage / resizeImage (offscreen.js)

Only the output dimensions matter to the claims; pixel transfer via the
canvas is not modelled.  JS truthiness of a dimension (`!targetWidth`)
is `= 0` since the service worker normalises the settings with
`msg.cropWidth || 0`.
-/

/-- Output dimensions of `cropImage(img, targetWidth, targetHeight)`
for a source of size `srcW × srcH` (offscreen.js lines 64–88):

```
if ((!targetWidth && !targetHeight) ||
    (targetWidth >= srcW && targetHeight >= srcH)) return original;
const cropW = targetWidth && targetWidth < srcW ? targetWidth : srcW;
const cropH = targetHeight && targetHeight < srcH ? targetHeight : srcH;
```
-/
def cropDims (srcW srcH targetWidth targetHeight : Nat) : Nat × Nat :=
  if (targetWidth = 0 ∧ targetHeight = 0) ∨
     (srcW ≤ targetWidth ∧ srcH ≤ targetHeight) then
    (srcW, srcH)
  else
    (if targetWidth ≠ 0 ∧ targetWidth < srcW then targetWidth else srcW,
     if targetHeight ≠ 0 ∧ targetHeight < srcH then targetHeight else srcH)

/-- JavaScript `Math.round` for the nonnegative values arising here:
round-half-up, `⌊q + 1/2⌋`. -/
def jsRound (q : ℚ) : ℤ := ⌊q + 1 / 2⌋

/-- The `scale` computed by `resizeImage` (offscreen.js lines 104–111):
`Math.min(targetWidth / srcW, targetHeight / srcH)` when both targets
are set, else the single set ratio.  Callers guarantee `srcW, srcH > 0`
(an image's natural dimensions), so rational division matches JS. -/
def resizeScale (srcW srcH targetWidth targetHeight : Nat) : ℚ :=
  if targetWidth ≠ 0 ∧ targetHeight ≠ 0 then
    min ((targetWidth : ℚ) / srcW) ((targetHeight : ℚ) / srcH)
  else if targetWidth ≠ 0 then (targetWidth : ℚ) / srcW
  else (targetHeight : ℚ) / srcH

/-- Output dimensions of `resizeImage(img, targetWidth, targetHeight)`
(offscreen.js lines 95–130): no-op when both targets are 0, no-op when
`scale >= 1` ("Don't upscale"), else
`Math.round(srcW * scale) × Math.round(srcH * scale)`. -/
def resizeDims (srcW srcH targetWidth targetHeight : Nat) : Nat × Nat :=
  if targetWidth = 0 ∧ targetHeight = 0 then (srcW, srcH)
  else
    let scale := resizeScale srcW srcH targetWidth targetHeight
    if 1 ≤ scale then (srcW, srcH)
    else ((jsRound (srcW * scale)).toNat, (jsRound (srcH * scale)).toNat)

/-! ## Service worker: captureWithZoom (part_002, lines 219–261)

The zoom level is a shared mutable resource (`chrome.tabs.setZoom`);
we thread it explicitly.  The environment `cap : Nat → Option Frame`
gives the outcome of each `chrome.tabs.captureVisibleTab` call:
`cap 0`, `cap 1`, `cap 2` are the three zoomed attempts (`none` =
the call threw), `cap 3` is the final un-zoomed degraded attempt.
`setZoom` itself is modelled as always succeeding (the code's
`try/catch` around the restore only guards against API failure). -/

/-- One pass of the `for (let attempt = 0; attempt < MAX_RETRIES; …)`
loop of `captureWithZoom`.  `remaining` is `MAX_RETRIES - attempt`;
`zoom` is the tab zoom on entry.  Returns the captured data URL (or
`none`) together with the tab zoom at the moment of return.

```
try {
  await chrome.tabs.setZoom(tabId, zoomLevel); …
  const dataUrl = await chrome.tabs.captureVisibleTab(…);
  await chrome.tabs.setZoom(tabId, 1.0); …
  return dataUrl;
} catch (err) {
  try { await chrome.tabs.setZoom(tabId, 1.0); } catch { }
  …
  if (attempt === MAX_RETRIES - 1) {
    try { return await chrome.tabs.captureVisibleTab(…); }
    catch { return null; }
  }
}
```
-/
def captureWithZoomAux (zoomLevel : ℚ) (cap : Nat → Option Frame) :
    Nat → Nat → ℚ → Option Frame × ℚ
  | _, 0, zoom => (none, zoom)
  | attempt, remaining + 1, _zoom =>
    -- `await chrome.tabs.setZoom(tabId, zoomLevel)`: zoom is now `zoomLevel`
    match cap attempt with
    | some dataUrl =>
      -- success path: `await chrome.tabs.setZoom(tabId, 1.0)` then return
      (some dataUrl, 1)
    | none =>
      -- catch: `await chrome.tabs.setZoom(tabId, 1.0)`, zoom is now 1
      if remaining = 0 then
        -- last attempt: degraded un-zoomed capture (zoom stays 1)
        (cap 3, 1)
      else
        captureWithZoomAux zoomLevel cap (attempt + 1) remaining 1

/-- Function `captureWithZoom(tabId, windowId, zoomLevel)` with `MAX_RETRIES = 3`,
starting from an un-zoomed tab. -/
def captureWithZoom (zoomLevel : ℚ) (cap : Nat → Option Frame) : Option Frame × ℚ :=
  captureWithZoomAux zoomLevel cap 0 3 1

/-! ## Service worker: captureWithRetry (part_002, lines 418–447)

For the blank-page size heuristic only the data URL's string length
matters, so here a capture outcome is `Option Nat` — the length of the
data URL, or `none` when `captureWithZoom` returned null. -/

/-- The blank-detection gate of `captureWithRetry`:

```
const sizeKB = (dataUrl.length * 3) / 4 / 1024;
if (sizeKB > 30) { return dataUrl; }
```

`sizeKB > 30 ↔ len * 3 > 30 * 4 * 1024 = 122880` (the JS float
arithmetic is exact here), i.e. the frame is accepted exactly when its
approximate decoded size is strictly greater than 30 KB. -/
def acceptedSize (len : Nat) : Bool := decide (122880 < len * 3)

/-- The retry loop of `captureWithRetry`.  `attempts i` is the result of
the `i`-th `captureWithZoom` call (the length of the returned data URL,
`none` for null).  `remaining` counts the loop iterations left; when the
loop is exhausted the code performs one final capture and returns it
unconditionally (`// After all retries, return whatever we captured`). -/
def captureWithRetryAux (attempts : Nat → Option Nat) : Nat → Nat → Option Nat
  | attempt, 0 => attempts attempt
  | attempt, remaining + 1 =>
    match attempts attempt with
    | none => none
    | some dataUrl =>
      if acceptedSize dataUrl then some dataUrl
      else captureWithRetryAux attempts (attempt + 1) remaining

/-- Function `captureWithRetry` with `MAX_RETRIES = 3`. -/
def captureWithRetry (attempts : Nat → Option Nat) : Option Nat :=
  captureWithRetryAux attempts 0 3

/-! ## Service worker: captureLoop (part_002, lines 146–213)

Events broadcast by the loop, plus the invocation of `generatePdf`
(which forwards the accumulated images to the offscreen document; it
returns immediately when `images.length === 0`, so an `assemble`
event is emitted exactly when `generatePdf` is called with a nonempty
image list). -/

/-- Observable events of one `captureLoop` run. -/
inductive Ev
  | progress (captured total : Nat)
  | captureStopped
  | captureComplete
  | assemble (images : List Frame)
deriving DecidableEq, Repr

/-- The cooperative stop flag.  `stopAt = some s` means the earliest
read of `captureState.isRunning` that observes the `stopCapture`
message is observation point `s`; `stopAt = none` means no stop is
ever issued.  Observation points are numbered in program order:
iteration `j` of the main loop reads the flag at point `2*j`
(the check at the top of the loop body) and at point `2*j + 1`
(the `if (!captureState.isRunning) break;` after the page turn);
the read in the epilogue after a run of `n` iterations is point
`2*n`.  `stoppedAt stopAt c` is the value `!captureState.isRunning`
read at point `c`. -/
def stoppedAt (stopAt : Option Nat) (c : Nat) : Bool :=
  match stopAt with
  | none => false
  | some s => decide (s ≤ c)

/-- The main `for (let page = startPage; page <= endPage; page++)` loop.
`caps j` is the result of `captureWithRetry` for iteration `j` (page
`startPage + j`); `total` is `captureState.totalPages`.  Returns the
events emitted inside the loop, the final `captureState.images`, and
`some c` when control reached the code after the loop with the
epilogue's `isRunning` read at observation point `c` — or `none` when
the loop returned early on the stop check at the top of an iteration:

```
if (!captureState.isRunning) {
  broadcast({ action: 'captureStopped' });
  … if (captureState.images.length > 0) { await generatePdf(); }
  return;
}
captureState.currentPage = page;
if (page > startPage) { await turnPage(…); } else { await sleep(…); }
if (!captureState.isRunning) break;
await waitForContentReady(…);
const dataUrl = await captureWithRetry(…);
if (dataUrl) { captureState.images.push(dataUrl); }
broadcastProgress(page - startPage + 1, captureState.totalPages);
```
-/
def loopGo (total : Nat) (caps : Nat → Option Frame) (stopAt : Option Nat) :
    Nat → Nat → List Frame → List Ev × List Frame × Option Nat
  | j, 0, images => ([], images, some (2 * j))
  | j, n + 1, images =>
    if stoppedAt stopAt (2 * j) then
      (Ev.captureStopped ::
         (if images = [] then [] else [Ev.assemble images]), images, none)
    else if stoppedAt stopAt (2 * j + 1) then
      ([], images, some (2 * j + 1))
    else
      let images2 := match caps j with
        | some f => images ++ [f]
        | none => images
      let r := loopGo total caps stopAt (j + 1) n images2
      (Ev.progress (j + 1) total :: r.1, r.2)

/-- Function `captureLoop`, from the initial `broadcastProgress(0, total)` (only
when `startPage > 1`) through the epilogue:

```
if (!captureState.isRunning && captureState.images.length === 0) { … return; }
captureState.isRunning = false; …
broadcast({ action: 'captureComplete' });
await generatePdf();
```

The loop body runs `endPage + 1 - startPage` times (0 times when
`startPage > endPage`); `totalPages = endPage - startPage + 1` as set by
`handleStartCapture` (faithful for `startPage ≤ endPage`, the range the
popup admits).  The epilogue's `isRunning` read happens at observation
point `c`; on the early-return exit (`none`) everything was already
emitted inside the loop. -/
def loopEpilogue (pre : List Ev) (stopAt : Option Nat) :
    List Ev × List Frame × Option Nat → List Ev × List Frame
  | (evs, imgs, none) => (pre ++ evs, imgs)
  | (evs, imgs, some c) =>
    if stoppedAt stopAt c ∧ imgs = [] then
      (pre ++ evs, imgs)
    else
      (pre ++ evs ++ [Ev.captureComplete] ++
         (if imgs = [] then [] else [Ev.assemble imgs]), imgs)

/-- The whole `captureLoop`: the pre-navigation progress broadcast,
the main loop, and the epilogue. -/
def captureLoop (startPage endPage : Nat) (caps : Nat → Option Frame)
    (stopAt : Option Nat) : List Ev × List Frame :=
  loopEpilogue (if 1 < startPage then [Ev.progress 0 (endPage - startPage + 1)] else [])
    stopAt
    (loopGo (endPage - startPage + 1) caps stopAt 0 (endPage + 1 - startPage) [])

/-! ## Popup validation and the startCapture handler -/

/-- The error shown by the popup's start-button validation
(popup.js lines 95–106); the strings are abstracted to constructors. -/
inductive PopupError
  | badPageNumbers   -- 「ページ番号を正しく入力してください」
  | startAfterEnd    -- 「開始ページは終了ページ以下にしてください」
  | delayTooShort    -- 「撮影間隔は500ms以上にしてください」
deriving DecidableEq, Repr

/-- The start-button click handler's validation, on already-parsed
numeric inputs (the `isNaN` branches fold into the `< 1` / `< 500`
rejections for non-numeric input):

```
if (isNaN(startPage) || isNaN(endPage) || startPage < 1 || endPage < 1) …
if (startPage > endPage) …
if (isNaN(delay) || delay < 500) …
```

Returns `some e` when the popup shows error `e` and does NOT send the
`startCapture` message; `none` when the message is sent. -/
def popupValidate (startPage endPage delay : ℤ) : Option PopupError :=
  if startPage < 1 ∨ endPage < 1 then some .badPageNumbers
  else if endPage < startPage then some .startAfterEnd
  else if delay < 500 then some .delayTooShort
  else none

/-- Response of `handleStartCapture` (part_002, lines 78–129),
abstracting the error strings. -/
inductive StartResp
  | ok
  | errAlreadyRunning  -- 「既に撮影中です」
  | errNoActiveTab     -- 「アクティブなタブが見つかりません」
  | errNotKindlePage   -- 「Kindle Cloud Readerのページで実行してください」
deriving DecidableEq, Repr

/-- Handler `handleStartCapture`: checks, in order, `captureState.isRunning`,
that an active tab exists, and that its URL contains `read.amazon.`;
then initialises the session (`captureState.isRunning = true`, page
range, etc.) and responds `{ ok: true }`.  The message's `startPage`,
`endPage` and `delay` are stored but never validated.  Returns the
response and the value of `captureState.isRunning` afterwards. -/
def handleStartCapture (isRunning tabFound urlIsKindle : Bool)
    (startPage endPage delay : ℤ) : StartResp × Bool :=
  if isRunning then (.errAlreadyRunning, true)
  else if ¬ tabFound then (.errNoActiveTab, false)
  else if ¬ urlIsKindle then (.errNotKindlePage, false)
  else (.ok, true)

/-- Number of occurrences of an event in a trace. -/
def countEv (e : Ev) : List Ev → Nat
  | [] => 0
  | x :: xs => (if x = e then 1 else 0) + countEv e xs

/-! ## Helper lemmas -/

theorem countEv_append (e : Ev) (a b : List Ev) :
    countEv e (a ++ b) = countEv e a + countEv e b := by
  induction a with
  | nil => simp [countEv]
  | cons x xs ih => simp [countEv, ih]; omega

theorem take_add' : ∀ (a : Nat) (l : List Frame) (b : Nat),
    l.take (a + b) = l.take a ++ (l.drop a).take b
  | 0, l, b => by simp
  | a + 1, [], b => by simp
  | a + 1, x :: xs, b => by
    have h : a + 1 + b = (a + b) + 1 := by omega
    rw [h]
    simpa using take_add' a xs b

/-- The declared batch count covers all images: `n ≤ 20 * ⌈n/20⌉`. -/
theorem le_BATCH_SIZE_mul_numBatches (n : Nat) : n ≤ BATCH_SIZE * numBatches n := by
  unfold numBatches BATCH_SIZE
  omega

/-- Every batch before the last one ends strictly inside the image
list. -/
theorem BATCH_SIZE_mul_lt_of_lt_numBatches (n k : Nat)
    (h : k + 1 < numBatches n) : BATCH_SIZE * (k + 1) < n := by
  unfold numBatches BATCH_SIZE at *
  omega

theorem numBatches_pos (n : Nat) (h : 0 < n) : 0 < numBatches n := by
  unfold numBatches BATCH_SIZE
  omega

/-- Unfolding of one iteration of the main capture loop. -/
theorem loopGo_succ (total : Nat) (caps : Nat → Option Frame)
    (stopAt : Option Nat) (j n : Nat) (images : List Frame) :
    loopGo total caps stopAt j (n + 1) images =
      if stoppedAt stopAt (2 * j) then
        (Ev.captureStopped ::
           (if images = [] then [] else [Ev.assemble images]), images, none)
      else if stoppedAt stopAt (2 * j + 1) then
        ([], images, some (2 * j + 1))
      else
        let images2 := match caps j with
          | some f => images ++ [f]
          | none => images
        let r := loopGo total caps stopAt (j + 1) n images2
        (Ev.progress (j + 1) total :: r.1, r.2) := rfl

/-- Inside the loop, `captureStopped` is emitted exactly once on the
early-return exit and never otherwise, and `captureComplete` is never
emitted. -/
theorem loopGo_terminal_counts (total : Nat) (caps : Nat → Option Frame)
    (stopAt : Option Nat) :
    ∀ n j images,
      (((loopGo total caps stopAt j n images).2.2 = none →
          countEv Ev.captureStopped (loopGo total caps stopAt j n images).1 = 1) ∧
        ((loopGo total caps stopAt j n images).2.2 ≠ none →
          countEv Ev.captureStopped (loopGo total caps stopAt j n images).1 = 0) ∧
        countEv Ev.captureComplete (loopGo total caps stopAt j n images).1 = 0) := by
  intro n
  induction n with
  | zero =>
    intro j images
    exact ⟨fun h => Option.noConfusion h, fun _ => rfl, rfl⟩
  | succ n ih =>
    intro j images
    rw [loopGo_succ]
    split
    · refine ⟨fun _ => ?_, fun h => absurd rfl h, ?_⟩ <;>
        · dsimp only
          split <;> simp [countEv]
    · split
      · exact ⟨fun h => Option.noConfusion h, fun _ => rfl, rfl⟩
      · cases hc : caps j with
        | none =>
          simp only [hc]
          refine ⟨fun h => ?_, fun h => ?_, ?_⟩
          · have := (ih (j + 1) images).1 h
            simpa [countEv] using this
          · have := (ih (j + 1) images).2.1 h
            simpa [countEv] using this
          · have := (ih (j + 1) images).2.2
            simpa [countEv] using this
        | some f =>
          simp only [hc]
          refine ⟨fun h => ?_, fun h => ?_, ?_⟩
          · have := (ih (j + 1) (images ++ [f])).1 h
            simpa [countEv] using this
          · have := (ih (j + 1) (images ++ [f])).2.1 h
            simpa [countEv] using this
          · have := (ih (j + 1) (images ++ [f])).2.2
            simpa [countEv] using this

/-- Run of the loop when no stop is ever issued: every iteration
executes, each emits its progress event, each successful capture
appends its frame in page order, and control falls through to the
epilogue. -/
theorem loopGo_no_stop (total : Nat) (caps : Nat → Option Frame) :
    ∀ n j images,
      loopGo total caps none j n images =
        ((List.range' j n).map (fun i => Ev.progress (i + 1) total),
         images ++ (List.range' j n).filterMap caps,
         some (2 * (j + n))) := by
  intro n
  induction n with
  | zero =>
    intro j images
    simp [loopGo]
  | succ n ih =>
    intro j images
    rw [loopGo_succ,
      if_neg (show ¬ stoppedAt none (2 * j) = true from Bool.false_ne_true),
      if_neg (show ¬ stoppedAt none (2 * j + 1) = true from Bool.false_ne_true),
      List.range'_succ, List.map_cons]
    cases hc : caps j with
    | none =>
      simp only [List.filterMap_cons, hc, ih (j + 1) images]
      rw [show j + 1 + n = j + (n + 1) from by omega]
    | some f =>
      simp only [List.filterMap_cons, hc, ih (j + 1) (images ++ [f])]
      rw [show j + 1 + n = j + (n + 1) from by omega]
      simp [List.append_assoc]

/-- The number of accumulated frames grows by at most one per
iteration. -/
theorem loopGo_length_le (total : Nat) (caps : Nat → Option Frame)
    (stopAt : Option Nat) :
    ∀ n j images,
      (loopGo total caps stopAt j n images).2.1.length ≤ images.length + n := by
  intro n
  induction n with
  | zero => intro j images; simp [loopGo]
  | succ n ih =>
    intro j images
    rw [loopGo_succ]
    split
    · simp
    · split
      · simp
      · simp only
        cases hc : caps j with
        | none =>
          calc (loopGo total caps stopAt (j + 1) n images).2.1.length
              ≤ images.length + n := ih (j + 1) images
            _ ≤ images.length + (n + 1) := by omega
        | some f =>
          calc (loopGo total caps stopAt (j + 1) n (images ++ [f])).2.1.length
              ≤ (images ++ [f]).length + n := ih (j + 1) (images ++ [f])
            _ ≤ images.length + (n + 1) := by simp; omega

/-- Run of the loop when the stop is first observed at the check at the
top of iteration `J`: iterations `j ≤ i < J` execute fully, iteration
`J` broadcasts `captureStopped` and — when frames exist — invokes
`generatePdf` on them, then returns. -/
theorem loopGo_stop_at_top (total : Nat) (caps : Nat → Option Frame) (J : Nat) :
    ∀ n j images, j ≤ J → J < j + n →
      loopGo total caps (some (2 * J)) j n images =
        ((List.range' j (J - j)).map (fun i => Ev.progress (i + 1) total) ++
           Ev.captureStopped ::
             (if images ++ (List.range' j (J - j)).filterMap caps = [] then []
              else [Ev.assemble (images ++ (List.range' j (J - j)).filterMap caps)]),
         images ++ (List.range' j (J - j)).filterMap caps,
         none) := by
  intro n
  induction n with
  | zero => intro j images h1 h2; omega
  | succ n ih =>
    intro j images h1 h2
    rw [loopGo_succ]
    rcases Nat.eq_or_lt_of_le h1 with heq | hlt
    · subst heq
      rw [if_pos (by simp [stoppedAt])]
      simp
    · rw [if_neg (by simp [stoppedAt]; omega),
        if_neg (by simp [stoppedAt]; omega)]
      simp only
      have hJj : J - j = (J - (j + 1)) + 1 := by omega
      rw [hJj, List.range'_succ, List.map_cons, List.filterMap_cons]
      cases hc : caps j with
      | none =>
        rw [ih (j + 1) images hlt (by omega)]
        simp
      | some f =>
        rw [ih (j + 1) (images ++ [f]) hlt (by omega)]
        simp

/-- Rounding `w * scale` half-up never exceeds `w` when `scale < 1`. -/
theorem jsRound_mul_le (w : Nat) (scale : ℚ) (hs : scale < 1) (hw : 0 < w) :
    (jsRound ((w : ℚ) * scale)).toNat ≤ w := by
  rw [Int.toNat_le]
  have hww : (0 : ℚ) < (w : ℚ) := by exact_mod_cast hw
  have h1 : (w : ℚ) * scale < w := mul_lt_of_lt_one_right hww hs
  have h2 : jsRound ((w : ℚ) * scale) < (w : ℤ) + 1 := by
    rw [jsRound, Int.floor_lt]
    push_cast
    linarith
  omega

/-- Unfolding of one non-final iteration of the blank-detection retry
loop. -/
theorem captureWithRetryAux_succ (attempts : Nat → Option Nat) (a r : Nat) :
    captureWithRetryAux attempts a (r + 1) =
      match attempts a with
      | none => none
      | some dataUrl =>
        if acceptedSize dataUrl then some dataUrl
        else captureWithRetryAux attempts (a + 1) r := rfl

/-- The final tab zoom of every pass through the `captureWithZoom`
retry loop is 1.0, for any remaining fuel `r + 1`. -/
theorem captureWithZoomAux_zoom_eq_one (z : ℚ) (cap : Nat → Option Frame) :
    ∀ r a zoom, (captureWithZoomAux z cap a (r + 1) zoom).2 = 1 := by
  intro r
  induction r with
  | zero =>
    intro a zoom
    unfold captureWithZoomAux
    cases cap a <;> simp
  | succ r ih =>
    intro a zoom
    unfold captureWithZoomAux
    cases cap a with
    | none => simpa using ih (a + 1) 1
    | some d => simp

theorem countEv_eq_zero_of_not_mem (e : Ev) (l : List Ev) (h : e ∉ l) :
    countEv e l = 0 := by
  induction l with
  | nil => rfl
  | cons x xs ih =>
    simp only [List.mem_cons, not_or] at h
    simp only [countEv]
    rw [if_neg (show ¬ x = e from fun hx => h.1 hx.symm), ih h.2]

theorem length_filterMap_isSome (f : Nat → Option Frame) :
    ∀ l : List Nat, (∀ i ∈ l, (f i).isSome) → (l.filterMap f).length = l.length := by
  intro l
  induction l with
  | nil => intro _; rfl
  | cons x xs ih =>
    intro h
    cases hf : f x with
    | none =>
      have := h x (List.mem_cons_self x xs)
      rw [hf] at this
      simp at this
    | some b =>
      simp only [List.filterMap_cons, hf, List.length_cons]
      rw [ih (fun i hi => h i (List.mem_cons_of_mem x hi))]

/-- In every exit branch, the images returned by `captureLoop` are the
images accumulated by the loop body. -/
theorem captureLoop_images (startPage endPage : Nat) (caps : Nat → Option Frame)
    (stopAt : Option Nat) :
    (captureLoop startPage endPage caps stopAt).2 =
      (loopGo (endPage - startPage + 1) caps stopAt 0
        (endPage + 1 - startPage) []).2.1 := by
  unfold captureLoop
  rcases hr : loopGo (endPage - startPage + 1) caps stopAt 0
      (endPage + 1 - startPage) [] with ⟨evs, imgs, ex⟩
  cases ex
  · rfl
  · rw [loopEpilogue]
    split <;> rfl

/-- Unfolding of `deliverBatches` over one arriving message. -/
theorem deliverBatches_cons (s : OffscreenState) (m : BatchMsg) (ms : List BatchMsg) :
    deliverBatches s (m :: ms) =
      (match (handleBatch s m).2 with
       | some imgs => [imgs]
       | none => []) ++ deliverBatches (handleBatch s m).1 ms := rfl

/-- In-order delivery of the batch suffix starting at batch `k`, from
the offscreen state reached after the first `k` batches: exactly one
`buildPdf` fires, with the full image sequence. -/
theorem deliverBatches_in_order (images : List Frame) :
    ∀ m k, k + m = numBatches images.length → 0 < m →
      deliverBatches
          ⟨images.take (BATCH_SIZE * k), numBatches images.length, k⟩
          ((List.range' k m).map (mkBatchMsg images)) = [images] := by
  intro m
  induction m with
  | zero => intro k _ h; omega
  | succ m ih =>
    intro k hk _
    rw [List.range'_succ, List.map_cons, deliverBatches_cons]
    have hb : BATCH_SIZE = 20 := rfl
    have himgs : images.take (BATCH_SIZE * k) ++
        (images.drop (BATCH_SIZE * k)).take BATCH_SIZE =
        images.take (BATCH_SIZE * k + BATCH_SIZE) :=
      (take_add' (BATCH_SIZE * k) images BATCH_SIZE).symm
    cases m with
    | zero =>
      have hT : k + 1 = numBatches images.length := by omega
      have hlen : images.length ≤ BATCH_SIZE * k + BATCH_SIZE := by
        have h20 := le_BATCH_SIZE_mul_numBatches images.length
        rw [hb] at h20 ⊢
        omega
      have hcond : ((mkBatchMsg images k).isLast ||
          decide (numBatches images.length ≤ k + 1)) = true := by
        rw [Bool.or_eq_true, decide_eq_true_eq]
        exact Or.inr (by omega)
      simp only [handleBatch, hcond, if_true, List.range'_zero, List.map_nil]
      rw [mkBatchMsg]
      simp only [himgs, List.take_of_length_le hlen]
      rfl
    | succ m' =>
      have hlast : (mkBatchMsg images k).isLast = false := by
        rw [mkBatchMsg]
        simp only [decide_eq_false_iff_not, not_le]
        have h20 := BATCH_SIZE_mul_lt_of_lt_numBatches images.length k
          (by omega)
        rw [hb] at h20 ⊢
        omega
      have hcond : ((mkBatchMsg images k).isLast ||
          decide (numBatches images.length ≤ k + 1)) = false := by
        rw [Bool.or_eq_false_iff, hlast, decide_eq_false_iff_not]
        exact ⟨rfl, by omega⟩
      simp only [handleBatch, hcond, Bool.false_eq_true, if_false]
      rw [mkBatchMsg]
      simp only [himgs, List.nil_append]
      rw [show BATCH_SIZE * k + BATCH_SIZE = BATCH_SIZE * (k + 1) from
        (Nat.mul_succ BATCH_SIZE k).symm]
      exact ih (k + 1) (by omega) (Nat.succ_pos m')

/-! ## Claim theorems -/

/-- C6: after every capture attempt in `captureWithZoom` — success,
thrown error, or the final un-zoomed degraded attempt — the tab zoom is
restored to 1.0 before `captureWithZoom` returns, on the success path
and on every error path. -/
theorem captureWithZoom_restores_zoom (zoomLevel : ℚ) (cap : Nat → Option Frame) :
    (captureWithZoom zoomLevel cap).2 = 1 :=
  captureWithZoomAux_zoom_eq_one zoomLevel cap 2 0 1

/-- C2 counterexample: a capture whose data URL length is exactly 40960
characters has approximate decoded size exactly 30 KB
(`40960 * 3 / 4 / 1024 = 30`).  The claim says such a frame is accepted
immediately, i.e. `captureWithRetry` would return it; instead the code's
strict `sizeKB > 30` test retries, and the result is the second
attempt's frame. -/
theorem captureWithRetry_at_30KB_retries :
    captureWithRetry (fun i => if i = 0 then some 40960 else some 999999) =
        some 999999 ∧
      captureWithRetry (fun i => if i = 0 then some 40960 else some 999999) ≠
        some 40960 := by
  constructor
  · rfl
  · decide

/-- C2 (amended): in `captureWithRetry`, a captured frame is accepted
immediately iff its approximate decoded size is STRICTLY greater than
30 KB (`dataUrl.length * 3 > 122880`); a frame at or below 30 KB —
including one of exactly 30 KB — triggers a retry (the loop continues
with attempt 1 and two retries remaining). -/
theorem captureWithRetry_strict_threshold (attempts : Nat → Option Nat) (d : Nat)
    (h0 : attempts 0 = some d) :
    (122880 < d * 3 → captureWithRetry attempts = some d) ∧
      (d * 3 ≤ 122880 →
        captureWithRetry attempts = captureWithRetryAux attempts 1 2) := by
  have h3 : captureWithRetry attempts = captureWithRetryAux attempts 0 (2 + 1) := rfl
  rw [h3, captureWithRetryAux_succ, h0]
  constructor <;> intro h
  · have ha : acceptedSize d = true := by
      simp only [acceptedSize, decide_eq_true_eq]
      omega
    simp [ha]
  · have ha : acceptedSize d = false := by
      simp only [acceptedSize, decide_eq_false_iff_not]
      omega
    simp [ha]

/-- C2 witness: a 50000-character data URL (≈ 36.6 KB > 30 KB) is
accepted immediately; one of exactly 40960 characters (= 30 KB) is
retried. -/
theorem captureWithRetry_strict_threshold_witness :
    (122880 < 50000 * 3 → captureWithRetry (fun _ => some 50000) = some 50000) ∧
      (50000 * 3 ≤ 122880 →
        captureWithRetry (fun _ => some 50000) =
          captureWithRetryAux (fun _ => some 50000) 1 2) :=
  captureWithRetry_strict_threshold (fun _ => some 50000) 50000 rfl

/-- C7: `cropImage` never produces an output dimension greater than the
source, and `resizeImage` never produces an output dimension greater
than the source; when the computed scale is ≥ 1 the original dimensions
are returned unchanged (no upscaling). -/
theorem crop_resize_no_upscale (srcW srcH targetWidth targetHeight : Nat)
    (hW : 0 < srcW) (hH : 0 < srcH) :
    (cropDims srcW srcH targetWidth targetHeight).1 ≤ srcW ∧
      (cropDims srcW srcH targetWidth targetHeight).2 ≤ srcH ∧
      (resizeDims srcW srcH targetWidth targetHeight).1 ≤ srcW ∧
      (resizeDims srcW srcH targetWidth targetHeight).2 ≤ srcH ∧
      (1 ≤ resizeScale srcW srcH targetWidth targetHeight →
        resizeDims srcW srcH targetWidth targetHeight = (srcW, srcH)) := by
  refine ⟨?_, ?_, ?_, ?_, ?_⟩
  · unfold cropDims
    split
    · exact le_refl _
    · simp only
      split <;> omega
  · unfold cropDims
    split
    · exact le_refl _
    · simp only
      split <;> omega
  · unfold resizeDims
    split
    · exact le_refl _
    · simp only
      split
      · exact le_refl _
      · next hlt =>
        exact jsRound_mul_le srcW _ (lt_of_not_le hlt) hW
  · unfold resizeDims
    split
    · exact le_refl _
    · simp only
      split
      · exact le_refl _
      · next hlt =>
        exact jsRound_mul_le srcH _ (lt_of_not_le hlt) hH
  · intro hscale
    unfold resizeDims
    split
    · rfl
    · simp only
      split
      · rfl
      · next hlt => exact absurd hscale hlt

/-- C7 witness: a 1000×800 source with crop spec 600×0 and no resize
spec, and with resize scale ≥ 1 when the target is 2000×1600. -/
theorem crop_resize_no_upscale_witness :
    (cropDims 1000 800 600 0).1 ≤ 1000 ∧
      (cropDims 1000 800 600 0).2 ≤ 800 ∧
      (resizeDims 1000 800 600 0).1 ≤ 1000 ∧
      (resizeDims 1000 800 600 0).2 ≤ 800 ∧
      (1 ≤ resizeScale 1000 800 600 0 →
        resizeDims 1000 800 600 0 = (1000, 800)) :=
  crop_resize_no_upscale 1000 800 600 0 (by decide) (by decide)

/-- C10: a `generatePdfBatch` message handled in the offscreen
document's initial state (no preceding `generatePdfBatchInit`, so
`totalBatches` is still 0) satisfies `receivedBatches >= totalBatches`
after that single batch, so `buildPdf` is invoked immediately with only
that batch's frames, regardless of its `isLast` flag. -/
theorem batch_without_init_assembles_immediately (m : BatchMsg) :
    handleBatch OffscreenState.init m = (⟨[], 0, 1⟩, some m.images) := by
  simp [handleBatch, OffscreenState.init]

/-- C4 counterexample: a `startCapture` message with
`startPage = 5 > endPage = 2` and `delay = 100 < 500`, arriving while
no session is running on a valid Kindle tab, is ACCEPTED by
`handleStartCapture` — the response is `ok` and `isRunning` becomes
`true` — contradicting the claim that the orchestrator's handler
rejects such requests and no session begins. -/
theorem handleStartCapture_accepts_invalid_range :
    handleStartCapture false true true 5 2 100 = (StartResp.ok, true) := rfl

/-- C4 (amended): the range/delay validation happens in the popup's
start-button handler, not in the orchestrator: every input with
`startPage > endPage` or `delay < 500` is rejected by the popup with an
error and the `startCapture` message is never sent, so no session
begins; `handleStartCapture` itself performs no range or delay
validation (it checks only the running flag, tab presence, and the
site URL). -/
theorem popup_rejects_invalid_config (startPage endPage delay : ℤ)
    (h : endPage < startPage ∨ delay < 500) :
    (popupValidate startPage endPage delay).isSome = true ∧
      (∀ isRunning tabFound urlIsKindle : Bool,
        handleStartCapture isRunning tabFound urlIsKindle startPage endPage delay =
          handleStartCapture isRunning tabFound urlIsKindle 1 1 2000) := by
  constructor
  · unfold popupValidate
    split
    · simp
    next h1 =>
      split
      · simp
      next h2 =>
        split
        · simp
        next h3 =>
          exfalso
          rcases h with h | h
          · exact h2 h
          · exact h3 h
  · intro isRunning tabFound urlIsKindle
    rfl

/-- C4 witness: the invalid configuration `startPage = 5, endPage = 2,
delay = 100` is rejected by the popup validation. -/
theorem popup_rejects_invalid_config_witness :
    (popupValidate 5 2 100).isSome = true ∧
      (∀ isRunning tabFound urlIsKindle : Bool,
        handleStartCapture isRunning tabFound urlIsKindle 5 2 100 =
          handleStartCapture isRunning tabFound urlIsKindle 1 1 2000) :=
  popup_rejects_invalid_config 5 2 100 (Or.inl (by norm_num))

/-- C3 counterexample: a session over pages 1–3 in which the stop is
first observed at the `if (!captureState.isRunning) break;` check of
the second iteration (observation point 3), after one frame was
captured.  This stopped session emits `captureStopped` ZERO times (and
emits `captureComplete` instead), contradicting the claim that a
stopped session emits `captureStopped` exactly once. -/
theorem stopped_session_without_captureStopped :
    countEv Ev.captureStopped
        (captureLoop 1 3 (fun _ => some 7) (some 3)).1 = 0 ∧
      countEv Ev.captureComplete
        (captureLoop 1 3 (fun _ => some 7) (some 3)).1 = 1 ∧
      (captureLoop 1 3 (fun _ => some 7) (some 3)).2 = [7] := by decide

/-- C3 (amended): in every `captureLoop` run, each of `captureStopped`
and `captureComplete` is emitted at most once, and at most one of the
two is emitted; every run that captured at least one frame emits
exactly one of them.  A stopped session, however, emits
`captureStopped` only when the stop is observed at the check at the top
of an iteration; a stop observed at the mid-iteration check leads to
`captureComplete` (frames present) or to no terminal event (no
frames). -/
theorem terminal_events_at_most_once (startPage endPage : Nat)
    (caps : Nat → Option Frame) (stopAt : Option Nat) :
    countEv Ev.captureStopped (captureLoop startPage endPage caps stopAt).1 +
        countEv Ev.captureComplete (captureLoop startPage endPage caps stopAt).1 ≤
        1 ∧
      ((captureLoop startPage endPage caps stopAt).2 = [] ∨
        countEv Ev.captureStopped (captureLoop startPage endPage caps stopAt).1 +
            countEv Ev.captureComplete
              (captureLoop startPage endPage caps stopAt).1 = 1) := by
  have hpre1 : countEv Ev.captureStopped
      (if 1 < startPage then [Ev.progress 0 (endPage - startPage + 1)] else []) = 0 := by
    split <;> simp [countEv]
  have hpre2 : countEv Ev.captureComplete
      (if 1 < startPage then [Ev.progress 0 (endPage - startPage + 1)] else []) = 0 := by
    split <;> simp [countEv]
  unfold captureLoop
  rcases hr : loopGo (endPage - startPage + 1) caps stopAt 0
      (endPage + 1 - startPage) [] with ⟨evs, imgs, ex⟩
  have hmain := loopGo_terminal_counts (endPage - startPage + 1) caps stopAt
      (endPage + 1 - startPage) 0 []
  rw [hr] at hmain
  have h1 : ex = none → countEv Ev.captureStopped evs = 1 := hmain.1
  have h2 : ex ≠ none → countEv Ev.captureStopped evs = 0 := hmain.2.1
  have h3 : countEv Ev.captureComplete evs = 0 := hmain.2.2
  cases ex with
  | none =>
    rw [loopEpilogue]
    simp [countEv_append, hpre1, hpre2, h1 rfl, h3]
  | some c =>
    have hstop : countEv Ev.captureStopped evs = 0 :=
      h2 (fun h => Option.noConfusion h)
    rw [loopEpilogue]
    split
    next hcond =>
      refine ⟨?_, Or.inl hcond.2⟩
      simp [countEv_append, hpre1, hpre2, hstop, h3]
    next hcond =>
      have hopt1 : countEv Ev.captureStopped
          (if imgs = [] then [] else [Ev.assemble imgs]) = 0 := by
        split <;> simp [countEv]
      have hopt2 : countEv Ev.captureComplete
          (if imgs = [] then [] else [Ev.assemble imgs]) = 0 := by
        split <;> simp [countEv]
      have hone1 : countEv Ev.captureStopped [Ev.captureComplete] = 0 := by
        simp [countEv]
      have hone2 : countEv Ev.captureComplete [Ev.captureComplete] = 1 := by
        simp [countEv]
      refine ⟨?_, Or.inr ?_⟩ <;>
        simp [countEv, countEv_append, hpre1, hpre2, hstop, h3, hopt1,
          hopt2]

/-- C5 counterexample: a session over pages 1–5 in which the stop is
first observed at the mid-iteration check of the third iteration
(observation point 5), after 2 of 5 frames were captured.  The loop
exits with the two frames, but the terminal event is `captureComplete`,
not `captureStopped` — contradicting the claim that every stop issued
after some frames are captured reports `captureStopped`. -/
theorem stop_after_two_of_five_cex :
    (captureLoop 1 5 (fun i => some i) (some 5)).2 = [0, 1] ∧
      countEv Ev.captureStopped
        (captureLoop 1 5 (fun i => some i) (some 5)).1 = 0 ∧
      countEv Ev.captureComplete
        (captureLoop 1 5 (fun i => some i) (some 5)).1 = 1 := by decide

/-- C5 (amended): when the stop is observed at the check at the top of
iteration `J` (pages `startPage … startPage + J - 1` already processed,
`J` within the range), the loop exits at that iteration boundary, the
terminal event is `captureStopped` (emitted once, with no
`captureComplete`), the final images are exactly the frames captured
for the first `J` pages in capture order, and — if any frames exist —
`generatePdf` is still invoked on exactly those frames, whose assembly
yields one page per captured frame.  (A stop observed at the
mid-iteration check instead ends with `captureComplete`, as the
counterexample shows.) -/
theorem stop_at_boundary_stops_and_assembles (startPage endPage : Nat)
    (caps : Nat → Option Frame) (J : Nat)
    (hJ : J < endPage + 1 - startPage) :
    (captureLoop startPage endPage caps (some (2 * J))).2 =
        (List.range J).filterMap caps ∧
      countEv Ev.captureStopped
        (captureLoop startPage endPage caps (some (2 * J))).1 = 1 ∧
      countEv Ev.captureComplete
        (captureLoop startPage endPage caps (some (2 * J))).1 = 0 ∧
      ((List.range J).filterMap caps ≠ [] →
        Ev.assemble ((List.range J).filterMap caps) ∈
            (captureLoop startPage endPage caps (some (2 * J))).1 ∧
          buildPdf ((List.range J).filterMap caps) =
            some ((List.range J).filterMap caps)) := by
  have hrun := loopGo_stop_at_top (endPage - startPage + 1) caps J
      (endPage + 1 - startPage) 0 [] (Nat.zero_le J) (by omega)
  simp only [Nat.sub_zero, List.nil_append, ← List.range_eq_range'] at hrun
  unfold captureLoop
  rw [hrun, loopEpilogue]
  have hprog : countEv Ev.captureStopped
      ((List.range J).map (fun i =>
        Ev.progress (i + 1) (endPage - startPage + 1))) = 0 := by
    refine countEv_eq_zero_of_not_mem _ _ ?_
    simp
  have hprog2 : countEv Ev.captureComplete
      ((List.range J).map (fun i =>
        Ev.progress (i + 1) (endPage - startPage + 1))) = 0 := by
    refine countEv_eq_zero_of_not_mem _ _ ?_
    simp
  have hpre1 : countEv Ev.captureStopped
      (if 1 < startPage then [Ev.progress 0 (endPage - startPage + 1)] else []) = 0 := by
    split <;> simp [countEv]
  have hpre2 : countEv Ev.captureComplete
      (if 1 < startPage then [Ev.progress 0 (endPage - startPage + 1)] else []) = 0 := by
    split <;> simp [countEv]
  have hopt1 : countEv Ev.captureStopped
      (if List.filterMap caps (List.range J) = [] then []
       else [Ev.assemble (List.filterMap caps (List.range J))]) = 0 := by
    split <;> simp [countEv]
  have hopt2 : countEv Ev.captureComplete
      (if List.filterMap caps (List.range J) = [] then []
       else [Ev.assemble (List.filterMap caps (List.range J))]) = 0 := by
    split <;> simp [countEv]
  refine ⟨rfl, ?_, ?_, fun hne => ⟨?_, ?_⟩⟩
  · rw [countEv_append, hpre1, countEv_append, hprog]
    simp only [countEv]
    rw [hopt1]
    simp
  · rw [countEv_append, hpre2, countEv_append, hprog2]
    simp only [countEv]
    rw [hopt2]
    simp
  · rw [if_neg hne]
    simp
  · have : ((List.range J).filterMap caps).isEmpty = false := by
      cases hl : (List.range J).filterMap caps
      · exact absurd hl hne
      · rfl
    simp [buildPdf, this]

/-- C5 witness: pages 1–5, all captures succeeding, stop observed at
the top of iteration 2: two frames, `captureStopped` once, assembly of
exactly those two frames. -/
theorem stop_at_boundary_stops_and_assembles_witness :
    (captureLoop 1 5 (fun i => some (i + 10)) (some (2 * 2))).2 =
        (List.range 2).filterMap (fun i => some (i + 10)) ∧
      countEv Ev.captureStopped
        (captureLoop 1 5 (fun i => some (i + 10)) (some (2 * 2))).1 = 1 ∧
      countEv Ev.captureComplete
        (captureLoop 1 5 (fun i => some (i + 10)) (some (2 * 2))).1 = 0 ∧
      ((List.range 2).filterMap (fun i => some (i + 10)) ≠ [] →
        Ev.assemble ((List.range 2).filterMap (fun i => some (i + 10))) ∈
            (captureLoop 1 5 (fun i => some (i + 10)) (some (2 * 2))).1 ∧
          buildPdf ((List.range 2).filterMap (fun i => some (i + 10))) =
            some ((List.range 2).filterMap (fun i => some (i + 10)))) :=
  stop_at_boundary_stops_and_assembles 1 5 (fun i => some (i + 10)) 2 (by norm_num)

/-- C8: for every session the number of accumulated frames never
exceeds `totalPages = endPage - startPage + 1`; on natural completion
(no stop ever observed) the frames are exactly the successful captures
in page order, and if no page's capture was permanently exhausted the
count equals `totalPages`. -/
theorem frames_bounded_by_totalPages (startPage endPage : Nat)
    (caps : Nat → Option Frame) (stopAt : Option Nat)
    (hle : startPage ≤ endPage) :
    (captureLoop startPage endPage caps stopAt).2.length ≤
        endPage - startPage + 1 ∧
      (captureLoop startPage endPage caps none).2 =
        (List.range (endPage + 1 - startPage)).filterMap caps ∧
      ((∀ i, i < endPage + 1 - startPage → (caps i).isSome) →
        (captureLoop startPage endPage caps none).2.length =
          endPage - startPage + 1) := by
  have himg := captureLoop_images startPage endPage caps stopAt
  have himg0 := captureLoop_images startPage endPage caps none
  have hnone := loopGo_no_stop (endPage - startPage + 1) caps
      (endPage + 1 - startPage) 0 []
  refine ⟨?_, ?_, ?_⟩
  · rw [himg]
    have := loopGo_length_le (endPage - startPage + 1) caps stopAt
        (endPage + 1 - startPage) 0 []
    simp only [List.length_nil] at this
    omega
  · rw [himg0, hnone]
    simp [← List.range_eq_range']
  · intro hall
    rw [himg0, hnone]
    simp only [← List.range_eq_range', List.nil_append]
    rw [length_filterMap_isSome caps _
      (fun i hi => hall i (List.mem_range.mp hi))]
    rw [List.length_range]
    omega

/-- C8 witness: pages 1–3, every capture succeeding, no stop: exactly
3 = totalPages frames. -/
theorem frames_bounded_by_totalPages_witness :
    (captureLoop 1 3 (fun i => some i) none).2.length ≤ 3 - 1 + 1 ∧
      (captureLoop 1 3 (fun i => some i) none).2 =
        (List.range (3 + 1 - 1)).filterMap (fun i => some i) ∧
      ((∀ i, i < 3 + 1 - 1 → ((fun i => some i) i).isSome) →
        (captureLoop 1 3 (fun i => some i) none).2.length = 3 - 1 + 1) :=
  frames_bounded_by_totalPages 1 3 (fun i => some i) none (by norm_num)

/-- C9: even for a page whose capture fails entirely
(`captureWithRetry` returns null, so no frame is appended), the
progress event is still emitted with `captured = page - startPage + 1`:
the `captured` field counts pages processed, not frames appended, and
can therefore exceed the number of accumulated frames. -/
theorem progress_emitted_even_on_failed_capture (startPage endPage : Nat)
    (caps : Nat → Option Frame) (j : Nat)
    (hj : j < endPage + 1 - startPage) (hfail : caps j = none) :
    Ev.progress (j + 1) (endPage - startPage + 1) ∈
      (captureLoop startPage endPage caps none).1 := by
  have hnone := loopGo_no_stop (endPage - startPage + 1) caps
      (endPage + 1 - startPage) 0 []
  unfold captureLoop
  rw [hnone, loopEpilogue,
    if_neg (fun h => Bool.false_ne_true h.1)]
  have hmem : Ev.progress (j + 1) (endPage - startPage + 1) ∈
      (List.range' 0 (endPage + 1 - startPage)).map
        (fun i => Ev.progress (i + 1) (endPage - startPage + 1)) := by
    simp only [List.mem_map, List.mem_range'_1]
    exact ⟨j, ⟨by omega, by omega⟩, rfl⟩
  simp [List.mem_append, hmem]

/-- C9 witness: pages 1–2 with every capture failing: the progress
event for page 2 carries `captured = 2` although zero frames were
accumulated. -/
theorem progress_emitted_even_on_failed_capture_witness :
    Ev.progress 2 2 ∈ (captureLoop 1 2 (fun _ => none) none).1 ∧
      (captureLoop 1 2 (fun _ => none) none).2.length = 0 :=
  ⟨progress_emitted_even_on_failed_capture 1 2 (fun _ => none) 1
      (by norm_num) rfl,
    by decide⟩

/-- C1 counterexample: 21 frames are split by the sender into two
batches `b0` (frames 0–19, `batchIndex 0`) and `b1` (frame 20,
`batchIndex 1, isLast`).  Delivered in arrival order `[b1, b0]` — a
permutation of the sender’s batches, each tagged with its original
index — the receiver appends in arrival order and fires `buildPdf`
twice (once early on `b1`’s `isLast`, once on the count), producing
page sequences `[[20], [0..19]]`, not the single-call sequence
`[0..20]`: arrival order is NOT reconstructed from `batchIndex`. -/
theorem chunked_out_of_order_differs :
    deliverBatches (handleBatchInit (numBatches (List.range 21).length))
        [mkBatchMsg (List.range 21) 1, mkBatchMsg (List.range 21) 0] ≠
        [List.range 21] ∧
      [mkBatchMsg (List.range 21) 1, mkBatchMsg (List.range 21) 0].Perm
        (makeBatches (List.range 21)) ∧
      (mkBatchMsg (List.range 21) 1).batchIndex = 1 ∧
      (mkBatchMsg (List.range 21) 0).batchIndex = 0 := by
  refine ⟨by decide, ?_, rfl, rfl⟩
  have : makeBatches (List.range 21) =
      [mkBatchMsg (List.range 21) 0, mkBatchMsg (List.range 21) 1] := by decide
  rw [this]
  exact List.Perm.swap _ _ _

/-- C1 (amended): chunked assembly reconstructs a page sequence
identical to a single non-chunked `generatePdf` call when the batches
arrive in the order the sender emits them: for every nonempty frame
sequence, delivering `generatePdfBatchInit` followed by the sender’s
batches in original order fires `buildPdf` exactly once, on exactly the
original ordered sequence — the same pages as the single call.  The
receiver, however, ignores `batchIndex` and appends in arrival order
(and completes early on `isLast`), so out-of-order arrival is NOT
reordered; the attached index is never used. -/
theorem chunked_in_order_matches_single (images : List Frame)
    (h : images ≠ []) :
    deliverBatches (handleBatchInit (numBatches images.length))
        (makeBatches images) = [images] ∧
      buildPdf images = some images := by
  constructor
  · have h0 : 0 < numBatches images.length :=
      numBatches_pos _ (List.length_pos.mpr h)
    have hrun := deliverBatches_in_order images
      (numBatches images.length) 0 (by omega) h0
    simp only [Nat.mul_zero, List.take_zero] at hrun
    rw [handleBatchInit, makeBatches, List.range_eq_range']
    exact hrun
  · cases images with
    | nil => exact absurd rfl h
    | cons x xs => rfl

/-- C1 witness: 45 frames are sent as three batches; in-order delivery
fires one `buildPdf` on the original sequence, matching the single
non-chunked call. -/
theorem chunked_in_order_matches_single_witness :
    deliverBatches (handleBatchInit (numBatches (List.range 45).length))
        (makeBatches (List.range 45)) = [List.range 45] ∧
      buildPdf (List.range 45) = some (List.range 45) :=
  chunked_in_order_matches_single (List.range 45) (by decide)

end KindleCapture
